import Mathlib

/-!
Shallow embedding of the lean-cli dashboard API client (`api/client.go`):
base-URL resolution, request-option construction, the 2FA-aware request
pipeline `doRequest`, and the 2FA challenge handler `checkAndDo2FA`.

External collaborators are modelled as components of a `World` record:
the `LEANCLOUD_DASHBOARD` environment variable, the region resolver
`apps.GetAppRegion`, the cookies the main jar holds for a URL, the HTTP
transport (`grequests.Get`/`Post`/...), the pluggable 2FA code source, the
outcome of `cookiejar.New` for the exchange jar, and the outcome of each
jar's `Save`.  Side effects — network dispatches and jar saves — are
collected in an event trace returned alongside the result.  A Go `panic`
is modelled as a distinct `Res.fatal` outcome, a returned `error` as
`Res.err`.  Response bodies are represented by their JSON-unmarshal
outcome (a field list, or raw text that fails to unmarshal into an
object); the one header the client reads, `Content-Type`, is a field of
the response.
-/

namespace LeanCli

/-- `regions.Region`: the known deployment regions, plus values outside
the static table. -/
inductive Region where
  | CN
  | US
  | TAB
  | other (name : String)
deriving DecidableEq

/-- `dashboardBaseUrls` (client.go 21–25): the static region → origin
table; `none` models a key missing from the Go map. -/
def dashboardBaseUrls : Region → Option String
  | .CN => some "https://leancloud.cn"
  | .US => some "https://us.leancloud.cn"
  | .TAB => some "https://tab.leancloud.cn"
  | .other _ => none

/-- A JSON scalar value, as far as this client reads or writes them:
the bodies it touches carry only string and integer fields. -/
inductive JsonVal where
  | str (s : String)
  | num (n : Int)
deriving DecidableEq

/-- The JSON-unmarshal outcome of a response body: an object with the
given fields, or raw text on which unmarshalling into an object fails. -/
inductive Body where
  | json (fields : List (String × JsonVal))
  | raw (s : String)
deriving DecidableEq

/-- A cookie as the client reads it: `http.Cookie` restricted to the
`Name` and `Value` fields the XSRF lookup uses. -/
structure Cookie where
  name : String
  value : String
deriving DecidableEq

/-- A `grequests.Response`, restricted to what `client.go` reads:
status code, the `Content-Type` header (the one header it gets), and
the body. -/
structure Response where
  statusCode : Nat
  contentType : String
  body : Body
deriving DecidableEq

/-- `resp.Ok` in grequests: the status code lies in the 2xx range. -/
def Response.Ok (r : Response) : Bool :=
  200 ≤ r.statusCode && r.statusCode < 300

/-- Which cookie jar a request or a save refers to: the client's main
jar (`client.CookieJar`) or the fresh jar opened for a 2FA exchange. -/
inductive JarRef where
  | main
  | fresh
deriving DecidableEq

/-- `grequests.RequestOptions`, restricted to the fields `client.go`
sets: headers, cookie jar, `UseCookieJar`, user agent, JSON body.
Go zero values are the empty list, `none`, `false`, `""`, `none`. -/
structure RequestOptions where
  headers : List (String × String)
  cookieJar : Option JarRef
  useCookieJar : Bool
  userAgent : String
  json : Option (List (String × JsonVal))
deriving DecidableEq

/-- One HTTP dispatch: the verb, the full URL, and the options sent. -/
structure HttpRequest where
  method : String
  url : String
  options : RequestOptions
deriving DecidableEq

/-- An observable side effect of the pipeline: a network dispatch, or a
`Save()` call on one of the two jars. -/
inductive Event where
  | net (req : HttpRequest)
  | save (jar : JarRef)
deriving DecidableEq

/-- The errors `doRequest`/`checkAndDo2FA` return, by provenance:
transport failure, challenge-body parse failure, 2FA-code acquisition
failure, `cookiejar.New` failure, a structured API error, a generic
HTTP-status error, and a jar-persistence failure. -/
inductive Err where
  | transport (msg : String)
  | jsonParse (msg : String)
  | code2FA (msg : String)
  | jarNew (msg : String)
  | structured (code : Int) (message : String)
  | httpStatus (status : Nat) (method : String) (path : String)
  | saveFail (msg : String)
deriving DecidableEq

/-- The outcome of a call: a value, a returned Go `error`, or a Go
`panic` (fatal, caught only at top level). -/
inductive Res (α : Type) where
  | ok (a : α)
  | err (e : Err)
  | fatal (msg : String)
deriving DecidableEq

/-- The client: a fixed region and/or an application ID plus the main
cookie jar (the jar itself lives behind `JarRef.main`). -/
structure Client where
  region : Region
  appID : String
deriving DecidableEq

/-- The external collaborators of one logical call, fixed for its
duration: environment, region resolver, the main jar's cookies per URL,
the CLI version string, the config directory, the HTTP transport, the
pluggable 2FA code source, the `cookiejar.New` outcome for the exchange
jar, and each jar's `Save()` outcome. -/
structure World where
  envDashboard : String
  getAppRegion : String → Except String Region
  cookiesFor : String → List Cookie
  version : String
  configDir : String
  http : HttpRequest → Except String Response
  get2FACode : Except String Int
  newExchangeJar : Except String Unit
  saveJar : JarRef → Except String Unit

/-- `strconv.Atoi` digit loop: accumulate decimal digits, failing on a
non-digit character. -/
def digitsVal (acc : Nat) : List Char → Option Nat
  | [] => some acc
  | c :: rest =>
      if c.isDigit then digitsVal (acc * 10 + (c.toNat - 48)) rest
      else none

/-- `strconv.Atoi`, as far as the default `Get2FACode` needs it: an
optional sign followed by one or more decimal digits; anything else is
a parse error.  (Go `int` range checking is not modelled.) -/
def atoi (s : String) : Option Int :=
  match s.data with
  | [] => none
  | '-' :: rest =>
      match rest with
      | [] => none
      | _ => (digitsVal 0 rest).map fun n => -(n : Int)
  | '+' :: rest =>
      match rest with
      | [] => none
      | _ => (digitsVal 0 rest).map fun n => (n : Int)
  | cs => (digitsVal 0 cs).map fun n => (n : Int)

/-- The default `Get2FACode` (client.go 30–46), parameterised by the
answer string the interactive prompt collects: a non-numeric answer is
rejected with a validation error; a numeric one becomes the code. -/
def Get2FACode (answer : String) : Except String Int :=
  match atoi answer with
  | some code => .ok code
  | none => .error "二次认证验证码应该为数字"

/-- Extract a string field from an unmarshalled JSON object the way
`encoding/json` fills a string struct field: missing or non-string
fields leave the Go zero value `""`. -/
def lookupStr (fields : List (String × JsonVal)) (key : String) : String :=
  match fields.lookup key with
  | some (.str s) => s
  | _ => ""

/-- Extract an integer field from an unmarshalled JSON object; missing
or non-numeric fields leave the Go zero value `0`. -/
def lookupInt (fields : List (String × JsonVal)) (key : String) : Int :=
  match fields.lookup key with
  | some (.num n) => n
  | _ => 0

/-- `GetBaseURL` (client.go 69–92).  `Except.error` models the two
`panic` sites: a failing region resolution and a region missing from
the static table. -/
def GetBaseURL (w : World) (client : Client) : Except String String :=
  if w.envDashboard ≠ "" then
    .ok w.envDashboard
  else
    let resolved : Except String Region :=
      if client.appID ≠ "" then w.getAppRegion client.appID
      else .ok client.region
    match resolved with
    | .error e => .error e
    | .ok region =>
        match dashboardBaseUrls region with
        | some url => .ok url
        | none => .error "invalid region"

/-- The XSRF-cookie scan of `options()` (client.go 100–106): the value
of the first cookie named `XSRF-TOKEN`, or `""` when none exists. -/
def findXSRF : List Cookie → String
  | [] => ""
  | c :: rest => if c.name = "XSRF-TOKEN" then c.value else findXSRF rest

/-- `(client *Client) options()` (client.go 94–116): resolve the base
URL (its panics propagate), read the jar's cookies for it, and build
the default request options.  (`url.Parse` of a resolved base URL is
assumed to succeed; its failure would also be a panic.) -/
def Client.options (w : World) (client : Client) : Res RequestOptions :=
  match GetBaseURL w client with
  | .error msg => .fatal msg
  | .ok base =>
      .ok {
        headers := [("X-XSRF-TOKEN", findXSRF (w.cookiesFor base))]
        cookieJar := some .main
        useCookieJar := true
        userAgent := "LeanCloud-CLI/" ++ w.version
        json := none }

/-- Whether the verb is one `doRequest`'s switch accepts. -/
def validMethod (m : String) : Bool :=
  m = "GET" || m = "POST" || m = "PUT" || m = "DELETE" || m = "PATCH"

/-- `if params != nil { options.JSON = params }` (client.go 125–127). -/
def applyParams (params : Option (List (String × JsonVal)))
    (opts : RequestOptions) : RequestOptions :=
  match params with
  | some p => { opts with json := some p }
  | none => opts

/-- The request the main pipeline dispatches (client.go 143): the verb,
the base URL joined with the path, and the (params-adjusted) options. -/
def mainRequest (method base path : String) (opts : RequestOptions) : HttpRequest :=
  { method := method, url := base ++ path, options := opts }

/-- `strings.TrimSpace` on the underlying characters: drop leading and
trailing whitespace.  (Go trims Unicode space; the content types this
client meets only carry ASCII whitespace.) -/
def trimChars (cs : List Char) : List Char :=
  ((cs.dropWhile Char.isWhitespace).reverse.dropWhile Char.isWhitespace).reverse

/-- `strings.HasPrefix pat text` on characters: does `text` start with
`pat`? -/
def leadChars : List Char → List Char → Bool
  | [], _ => true
  | _ :: _, [] => false
  | p :: ps, c :: cs => p = c && leadChars ps cs

/-- `strings.HasPrefix(strings.TrimSpace(ct), "application/json")`, the
content-type test of client.go 154 and 204. -/
def isJSONContentType (ct : String) : Bool :=
  leadChars "application/json".data (trimChars ct.data)

/-- Modelled from the spec: `NewErrorFromResponse` lives in
`api/error.go`, which is not under src/.  Per the spec it parses the
JSON error body into a Structured Error carrying a machine-readable
code and message (fields `code` and `error`); a body that is not a
JSON object yields the zero values. -/
def NewErrorFromResponse (resp : Response) : Err :=
  match resp.body with
  | .json fields => .structured (lookupInt fields "code") (lookupStr fields "error")
  | .raw _ => .structured 0 ""

/-- The POST the 2FA handler issues (client.go 193–199): the exchange
endpoint under the base URL, with only the JSON body and the fresh
exchange jar set; every other option keeps its Go zero value. -/
def do2faRequest (base token : String) (code : Int) : HttpRequest :=
  { method := "POST"
    url := base ++ "/1.1/do2fa"
    options := {
      headers := []
      cookieJar := some .fresh
      useCookieJar := false
      userAgent := ""
      json := some [("token", .str token), ("code", .num code)] } }

/-- `(client *Client) checkAndDo2FA(resp)` (client.go 168–215): pass a
non-401 response through; otherwise parse the challenge token, acquire
the 2FA code, open the fresh exchange jar, POST token and code to
`/1.1/do2fa`, classify the exchange response exactly as the main
pipeline does, save the fresh jar, and return the exchange response in
place of the original 401. -/
def checkAndDo2FA (w : World) (client : Client) (resp : Response) :
    Res Response × List Event :=
  if resp.statusCode ≠ 401 then
    (.ok resp, [])
  else
    match resp.body with
    | .raw s => (.err (.jsonParse s), [])
    | .json fields =>
        let token := lookupStr fields "token"
        match w.get2FACode with
        | .error e => (.err (.code2FA e), [])
        | .ok code =>
            match w.newExchangeJar with
            | .error e => (.err (.jarNew e), [])
            | .ok _ =>
                match GetBaseURL w client with
                | .error msg => (.fatal msg, [])
                | .ok base =>
                    let req := do2faRequest base token code
                    match w.http req with
                    | .error e => (.err (.transport e), [.net req])
                    | .ok resp2 =>
                        if !resp2.Ok then
                          if isJSONContentType resp2.contentType then
                            (.err (NewErrorFromResponse resp2), [.net req])
                          else
                            (.err (.httpStatus resp2.statusCode "POST" "/do2fa"), [.net req])
                        else
                          match w.saveJar .fresh with
                          | .error e => (.err (.saveFail e), [.net req, .save .fresh])
                          | .ok _ => (.ok resp2, [.net req, .save .fresh])

/-- `doRequest` (client.go 118–165): build default options when none
are supplied, attach the JSON params, dispatch by verb (an unknown verb
panics), route the response through the 2FA handler, classify non-2xx
responses into structured or generic errors, and save the main jar on
success — a save failure fails the call. -/
def doRequest (w : World) (client : Client) (method path : String)
    (params : Option (List (String × JsonVal)))
    (options : Option RequestOptions) : Res Response × List Event :=
  let optsRes : Res RequestOptions :=
    match options with
    | some o => .ok o
    | none => Client.options w client
  match optsRes with
  | .fatal msg => (.fatal msg, [])
  | .err e => (.err e, [])
  | .ok opts0 =>
      let opts := applyParams params opts0
      if !validMethod method then
        (.fatal ("invalid method: " ++ method), [])
      else
        match GetBaseURL w client with
        | .error msg => (.fatal msg, [])
        | .ok base =>
            let req := mainRequest method base path opts
            match w.http req with
            | .error e => (.err (.transport e), [.net req])
            | .ok resp0 =>
                match checkAndDo2FA w client resp0 with
                | (.fatal msg, tr) => (.fatal msg, .net req :: tr)
                | (.err e, tr) => (.err e, .net req :: tr)
                | (.ok resp, tr) =>
                    if !resp.Ok then
                      if isJSONContentType resp.contentType then
                        (.err (NewErrorFromResponse resp), .net req :: tr)
                      else
                        (.err (.httpStatus resp.statusCode method path), .net req :: tr)
                    else
                      match w.saveJar .main with
                      | .error e => (.err (.saveFail e), .net req :: tr ++ [.save .main])
                      | .ok _ => (.ok resp, .net req :: tr ++ [.save .main])

/-- `filepath.Join`, restricted to plain relative components. -/
def filepathJoin : List String → String
  | [] => ""
  | [p] => p
  | p :: rest => p ++ "/" ++ filepathJoin rest

/-- The directory `newCookieJar` ensures exists (client.go 238). -/
def jarFileDir (w : World) : String :=
  filepathJoin [w.configDir, "leancloud"]

/-- The file path backing the client's main jar (client.go 242–244). -/
def mainJarFilename (w : World) : String :=
  filepathJoin [jarFileDir w, "cookies"]

/-- The file path backing the fresh 2FA exchange jar (client.go 186–188). -/
def exchangeJarFilename (w : World) : String :=
  filepathJoin [w.configDir, "leancloud", "cookies"]

/-- The backing file of each jar reference. -/
def jarFilename (w : World) : JarRef → String
  | .main => mainJarFilename w
  | .fresh => exchangeJarFilename w

/-- The network dispatches of a trace, in order. -/
def netCalls : List Event → List HttpRequest
  | [] => []
  | .net r :: rest => r :: netCalls rest
  | .save _ :: rest => netCalls rest

/-- The jar saves of a trace, in order. -/
def savedJars : List Event → List JarRef
  | [] => []
  | .net _ :: rest => savedJars rest
  | .save j :: rest => j :: savedJars rest

/-- How many times a given jar's `Save()` is called in a trace. -/
def countSaves (j : JarRef) : List Event → Nat
  | [] => 0
  | .save j2 :: rest => (if j = j2 then 1 else 0) + countSaves j rest
  | .net _ :: rest => countSaves j rest

/-! ### Concrete worlds and inputs, used to instantiate the theorems -/

/-- A 2xx JSON response with an empty object body. -/
def respOkJson : Response :=
  { statusCode := 200, contentType := "application/json", body := .json [] }

/-- A 401 challenge response carrying the token `"abc"`. -/
def respChallenge : Response :=
  { statusCode := 401, contentType := "application/json"
    body := .json [("token", JsonVal.str "abc")] }

/-- A 400 response with a JSON error body `code 1, error "bad request"`. -/
def respBadJson : Response :=
  { statusCode := 400, contentType := "application/json"
    body := .json [("code", JsonVal.num 1), ("error", JsonVal.str "bad request")] }

/-- A 500 response with a plain-text body. -/
def respBadText : Response :=
  { statusCode := 500, contentType := "text/plain", body := .raw "oops" }

/-- A base world: no environment override, one XSRF cookie, a transport
that always answers 200, every collaborator succeeding. -/
def baseWorld : World :=
  { envDashboard := ""
    getAppRegion := fun _ => Except.error "app not found"
    cookiesFor := fun _ => [{ name := "XSRF-TOKEN", value := "tok123" }]
    version := "1.0.0"
    configDir := "/home/u/.config"
    http := fun _ => Except.ok respOkJson
    get2FACode := Get2FACode "123456"
    newExchangeJar := Except.ok ()
    saveJar := fun _ => Except.ok () }

/-- A world whose transport issues a 401 challenge on every request
except the 2FA exchange endpoint, which succeeds. -/
def w2FA : World :=
  { baseWorld with
    http := fun req =>
      if req.url = "https://leancloud.cn/1.1/do2fa" then Except.ok respOkJson
      else Except.ok respChallenge }

/-- A world with the `LEANCLOUD_DASHBOARD` override set. -/
def wEnvSet : World := { baseWorld with envDashboard := "http://env.example" }

/-- The 2FA world with a non-numeric interactive answer. -/
def wBadCode : World := { w2FA with get2FACode := Get2FACode "abc" }

/-- A world whose transport always answers the JSON 400. -/
def wBadJson : World := { baseWorld with http := fun _ => Except.ok respBadJson }

/-- A world whose transport always answers the plain-text 500. -/
def wBadText : World := { baseWorld with http := fun _ => Except.ok respBadText }

/-- A world whose transport always fails. -/
def wTransport : World := { baseWorld with http := fun _ => Except.error "conn refused" }

/-- A world where saving the main jar fails. -/
def wSaveFail : World :=
  { baseWorld with
    saveJar := fun j =>
      match j with
      | .main => Except.error "disk full"
      | .fresh => Except.ok () }

/-- A world whose main jar holds no cookies. -/
def wNoCookie : World := { baseWorld with cookiesFor := fun _ => [] }

/-- A world whose region resolver answers the US region. -/
def wAppUS : World := { baseWorld with getAppRegion := fun _ => Except.ok Region.US }

/-- A world whose region resolver answers a region outside the table. -/
def wAppBad : World :=
  { baseWorld with getAppRegion := fun _ => Except.ok (Region.other "XX") }

/-- A client fixed to the CN region. -/
def clCN : Client := { region := Region.CN, appID := "" }

/-- A client scoped to an application ID. -/
def clApp : Client := { region := Region.CN, appID := "app1" }

/-- A client fixed to a region outside the static table. -/
def clBad : Client := { region := Region.other "XX", appID := "" }

/-- The default options `Client.options` builds in `baseWorld`. -/
def optsCN : RequestOptions :=
  { headers := [("X-XSRF-TOKEN", "tok123")]
    cookieJar := some JarRef.main
    useCookieJar := true
    userAgent := "LeanCloud-CLI/1.0.0"
    json := none }

/-- The request a `GET /apps` call dispatches from `baseWorld`. -/
def reqGetApps : HttpRequest :=
  mainRequest "GET" "https://leancloud.cn" "/apps" optsCN

/-- The trace of a `GET /apps` call in the 2FA world. -/
def trW2FA : List Event :=
  [.net reqGetApps, .net (do2faRequest "https://leancloud.cn" "abc" 123456),
   .save JarRef.fresh, .save JarRef.main]

/-- The trace of a `GET /apps` call in the base world. -/
def trBase : List Event := [.net reqGetApps, .save JarRef.main]

/-! ### Helper lemmas -/

lemma checkAndDo2FA_not401 (w : World) (client : Client) (resp : Response)
    (h : resp.statusCode ≠ 401) : checkAndDo2FA w client resp = (.ok resp, []) := by
  simp [checkAndDo2FA, h]

lemma countSaves_append (j : JarRef) (l1 l2 : List Event) :
    countSaves j (l1 ++ l2) = countSaves j l1 + countSaves j l2 := by
  induction l1 with
  | nil => simp [countSaves]
  | cons e rest ih =>
    cases e with
    | net r => simp [countSaves, ih]
    | save j2 =>
      simp [countSaves, ih]
      omega

lemma checkAndDo2FA_no_main_save (w : World) (client : Client) (resp : Response) :
    countSaves .main (checkAndDo2FA w client resp).2 = 0 := by
  by_cases h : resp.statusCode = 401
  case neg => simp [checkAndDo2FA_not401 w client resp h, countSaves]
  case pos =>
    unfold checkAndDo2FA
    simp only [h, ne_eq, not_true_eq_false, if_false, reduceIte]
    cases hb : resp.body with
    | raw s => simp [countSaves]
    | json fields =>
      cases hc : w.get2FACode with
      | error e => simp [countSaves]
      | ok c =>
        cases hj : w.newExchangeJar with
        | error e => simp [countSaves]
        | ok u =>
          cases hg : GetBaseURL w client with
          | error m => simp [countSaves]
          | ok base =>
            cases hh : w.http (do2faRequest base (lookupStr fields "token") c) with
            | error e => simp [hh, countSaves]
            | ok r2 =>
              cases hOk : r2.Ok with
              | false =>
                cases hct : isJSONContentType r2.contentType <;>
                  simp [hh, hOk, hct, countSaves]
              | true =>
                cases hs : w.saveJar .fresh with
                | error e => simp [hh, hOk, hs, countSaves]
                | ok u2 => simp [hh, hOk, hs, countSaves]

lemma netCalls_checkAndDo2FA (w : World) (client : Client) (resp : Response)
    (fields : List (String × JsonVal)) (t base : String) (c : Int)
    (h401 : resp.statusCode = 401) (hbody : resp.body = .json fields)
    (htok : lookupStr fields "token" = t) (hcode : w.get2FACode = .ok c)
    (hjar : w.newExchangeJar = .ok ()) (hbase : GetBaseURL w client = .ok base) :
    netCalls (checkAndDo2FA w client resp).2 = [do2faRequest base t c] := by
  unfold checkAndDo2FA
  simp only [h401, hbody, hcode, hjar, hbase, htok, ne_eq, not_true_eq_false, if_false,
    reduceIte]
  rcases hh : w.http (do2faRequest base t c) with e | r2
  · simp [hh, netCalls]
  · simp only [hh]
    cases hOk : r2.Ok
    · cases hct : isJSONContentType r2.contentType <;> simp [hct, netCalls]
    · rcases hs : w.saveJar .fresh with e | u <;> simp [hs, netCalls]

lemma doRequestCore_ok_inv (w : World) (client : Client) (method path : String)
    (params : Option (List (String × JsonVal))) (opts : RequestOptions)
    (r : Response) (tr : List Event)
    (h : doRequest w client method path params (some opts) = (.ok r, tr)) :
    r.Ok = true ∧ countSaves .main tr = 1 := by
  unfold doRequest at h
  by_cases hm : validMethod method
  case neg => simp [hm] at h
  case pos =>
    simp only [hm, Bool.not_true, if_false, reduceIte] at h
    cases hb : GetBaseURL w client with
    | error e => simp [hb] at h
    | ok base =>
      simp only [hb] at h
      cases hh : w.http (mainRequest method base path (applyParams params opts)) with
      | error e =>
        rw [hh] at h
        simp at h
      | ok resp0 =>
        rw [hh] at h
        simp only [reduceIte] at h
        rcases h2 : checkAndDo2FA w client resp0 with ⟨res, tr2⟩
        rw [h2] at h
        have h0 := checkAndDo2FA_no_main_save w client resp0
        rw [h2] at h0
        simp only at h0
        rcases res with resp | e | m
        · cases hOk : resp.Ok with
          | false =>
            cases hct : isJSONContentType resp.contentType <;> simp [hOk, hct] at h
          | true =>
            cases hs : w.saveJar .main with
            | error e =>
              rw [hs] at h
              simp [hOk] at h
            | ok u =>
              rw [hs] at h
              simp only [hOk, Bool.not_true, if_false, reduceIte] at h
              rw [Prod.mk.injEq] at h
              obtain ⟨h1, h3⟩ := h
              cases h1
              subst h3
              refine ⟨hOk, ?_⟩
              simp [countSaves, countSaves_append, h0]
        · simp at h
        · simp at h

lemma doRequest_none_eq (w : World) (client : Client) (method path : String)
    (params : Option (List (String × JsonVal))) (o : RequestOptions)
    (h : Client.options w client = .ok o) :
    doRequest w client method path params none =
      doRequest w client method path params (some o) := by
  unfold doRequest
  simp [h]

lemma doRequest_ok_inv (w : World) (client : Client) (method path : String)
    (params : Option (List (String × JsonVal))) (options : Option RequestOptions)
    (r : Response) (tr : List Event)
    (h : doRequest w client method path params options = (.ok r, tr)) :
    r.Ok = true ∧ countSaves .main tr = 1 := by
  cases options with
  | some o => exact doRequestCore_ok_inv w client method path params o r tr h
  | none =>
    cases hco : Client.options w client with
    | ok o =>
      rw [doRequest_none_eq w client method path params o hco] at h
      exact doRequestCore_ok_inv w client method path params o r tr h
    | err e =>
      unfold doRequest at h
      simp [hco] at h
    | fatal m =>
      unfold doRequest at h
      simp [hco] at h

lemma doRequest_trace_head (w : World) (client : Client) (method path : String)
    (params : Option (List (String × JsonVal))) (opts : RequestOptions) (base : String)
    (hm : validMethod method = true) (hbase : GetBaseURL w client = .ok base) :
    (doRequest w client method path params (some opts)).2.head? =
      some (.net (mainRequest method base path (applyParams params opts))) := by
  unfold doRequest
  cases hh : w.http (mainRequest method base path (applyParams params opts)) with
  | error e => simp [hm, hbase, hh]
  | ok resp0 =>
    rcases h2 : checkAndDo2FA w client resp0 with ⟨res, tr2⟩
    rcases res with resp | e | m
    · cases hOk : resp.Ok with
      | false =>
        cases hct : isJSONContentType resp.contentType <;>
          simp [hm, hbase, hh, h2, hOk, hct]
      | true =>
        cases hs : w.saveJar .main with
        | error e => simp [hm, hbase, hh, h2, hOk, hs]
        | ok u => simp [hm, hbase, hh, h2, hOk, hs]
    · simp [hm, hbase, hh, h2]
    · simp [hm, hbase, hh, h2]

lemma findXSRF_empty (cs : List Cookie) (h : ∀ ck ∈ cs, ck.name ≠ "XSRF-TOKEN") :
    findXSRF cs = "" := by
  induction cs with
  | nil => rfl
  | cons c rest ih =>
    unfold findXSRF
    rw [if_neg (h c (by simp))]
    exact ih fun ck hck => h ck (by simp [hck])

lemma checkAndDo2FA_success_eq (w : World) (client : Client)
    (resp resp2 : Response) (fields : List (String × JsonVal)) (t base : String) (c : Int)
    (h401 : resp.statusCode = 401) (hbody : resp.body = .json fields)
    (htok : lookupStr fields "token" = t) (hcode : w.get2FACode = .ok c)
    (hjar : w.newExchangeJar = .ok ()) (hbase : GetBaseURL w client = .ok base)
    (hhttp : w.http (do2faRequest base t c) = .ok resp2) (hok : resp2.Ok = true)
    (hsave : w.saveJar .fresh = .ok ()) :
    checkAndDo2FA w client resp =
      (.ok resp2, [.net (do2faRequest base t c), .save .fresh]) := by
  unfold checkAndDo2FA
  simp [h401, hbody, htok, hcode, hjar, hbase, hhttp, hok, hsave]

/-! ### Claims -/

/-- Claim C6: `GetBaseURL` follows the priority order: a non-empty
`LEANCLOUD_DASHBOARD` override is returned unconditionally regardless of
region or app ID; otherwise a present app ID is resolved to a region,
resolution failure being a panic; the effective region is then looked up
in the static table, an unknown region being a panic and never a silent
fallback. -/
theorem GetBaseURL_priority (w : World) (client : Client) :
    (w.envDashboard ≠ "" → GetBaseURL w client = .ok w.envDashboard) ∧
    (∀ e, w.envDashboard = "" → client.appID ≠ "" →
      w.getAppRegion client.appID = .error e → GetBaseURL w client = .error e) ∧
    (∀ r u, w.envDashboard = "" → client.appID ≠ "" →
      w.getAppRegion client.appID = .ok r → dashboardBaseUrls r = some u →
      GetBaseURL w client = .ok u) ∧
    (∀ r, w.envDashboard = "" → client.appID ≠ "" →
      w.getAppRegion client.appID = .ok r → dashboardBaseUrls r = none →
      GetBaseURL w client = .error "invalid region") ∧
    (∀ u, w.envDashboard = "" → client.appID = "" →
      dashboardBaseUrls client.region = some u → GetBaseURL w client = .ok u) ∧
    (w.envDashboard = "" → client.appID = "" →
      dashboardBaseUrls client.region = none →
      GetBaseURL w client = .error "invalid region") := by
  refine ⟨?_, ?_, ?_, ?_, ?_, ?_⟩
  · intro h
    simp [GetBaseURL, h]
  · intro e h1 h2 h3
    simp [GetBaseURL, h1, h2, h3]
  · intro r u h1 h2 h3 h4
    simp [GetBaseURL, h1, h2, h3, h4]
  · intro r h1 h2 h3 h4
    simp [GetBaseURL, h1, h2, h3, h4]
  · intro u h1 h2 h3
    simp [GetBaseURL, h1, h2, h3]
  · intro h1 h2 h3
    simp [GetBaseURL, h1, h2, h3]

/-- Witness for C6: the override wins over an app ID; a failing
resolution panics; a resolved region is looked up in the table; a region
outside the table panics. -/
theorem GetBaseURL_priority_witness :
    GetBaseURL wEnvSet clApp = .ok "http://env.example" ∧
    GetBaseURL baseWorld clApp = .error "app not found" ∧
    GetBaseURL wAppUS clApp = .ok "https://us.leancloud.cn" ∧
    GetBaseURL wAppBad clApp = .error "invalid region" ∧
    GetBaseURL baseWorld clCN = .ok "https://leancloud.cn" ∧
    GetBaseURL baseWorld clBad = .error "invalid region" :=
  ⟨(GetBaseURL_priority wEnvSet clApp).1 (by decide),
   (GetBaseURL_priority baseWorld clApp).2.1 "app not found" rfl (by decide) rfl,
   (GetBaseURL_priority wAppUS clApp).2.2.1 Region.US "https://us.leancloud.cn" rfl
     (by decide) rfl rfl,
   (GetBaseURL_priority wAppBad clApp).2.2.2.1 (Region.other "XX") rfl (by decide)
     rfl rfl,
   (GetBaseURL_priority baseWorld clCN).2.2.2.2.1 "https://leancloud.cn" rfl rfl rfl,
   (GetBaseURL_priority baseWorld clBad).2.2.2.2.2 rfl rfl rfl⟩

/-- Claim C7: for every region of the static table (CN, US, TAB),
`GetBaseURL` on a client fixed to that region, with no app ID and no
environment override, returns exactly the table's URL. -/
theorem GetBaseURL_static_table (w : World) (henv : w.envDashboard = "") :
    GetBaseURL w { region := .CN, appID := "" } = .ok "https://leancloud.cn" ∧
    GetBaseURL w { region := .US, appID := "" } = .ok "https://us.leancloud.cn" ∧
    GetBaseURL w { region := .TAB, appID := "" } = .ok "https://tab.leancloud.cn" := by
  refine ⟨?_, ?_, ?_⟩ <;> simp [GetBaseURL, henv, dashboardBaseUrls]

/-- Witness for C7, in the base world. -/
theorem GetBaseURL_static_table_witness :
    GetBaseURL baseWorld { region := .CN, appID := "" } = .ok "https://leancloud.cn" ∧
    GetBaseURL baseWorld { region := .US, appID := "" } = .ok "https://us.leancloud.cn" ∧
    GetBaseURL baseWorld { region := .TAB, appID := "" } = .ok "https://tab.leancloud.cn" :=
  GetBaseURL_static_table baseWorld rfl

/-- Claim C1: on a 401 whose body parses with token `t`, a numeric code
`c` from the pluggable acquisition function leads to exactly one POST to
`<base>/1.1/do2fa` with JSON body token `t` and code `c`; a validation
error from the acquisition function is returned to the caller with no
further network call. -/
theorem checkAndDo2FA_exchange_post (w : World) (client : Client) (resp : Response)
    (fields : List (String × JsonVal)) (t base : String) (c : Int)
    (h401 : resp.statusCode = 401) (hbody : resp.body = .json fields)
    (htok : lookupStr fields "token" = t) :
    (w.get2FACode = .ok c → w.newExchangeJar = .ok () → GetBaseURL w client = .ok base →
      netCalls (checkAndDo2FA w client resp).2 =
        [{ method := "POST", url := base ++ "/1.1/do2fa"
           options := { headers := [], cookieJar := some JarRef.fresh, useCookieJar := false
                        userAgent := ""
                        json := some [("token", .str t), ("code", .num c)] } }]) ∧
    (∀ e, w.get2FACode = .error e →
      checkAndDo2FA w client resp = (.err (.code2FA e), [])) := by
  constructor
  · intro hcode hjar hbase
    have h := netCalls_checkAndDo2FA w client resp fields t base c h401 hbody htok
      hcode hjar hbase
    simpa [do2faRequest] using h
  · intro e he
    unfold checkAndDo2FA
    simp [h401, hbody, he]

/-- Witness for C1: the numeric code `123456` produces the one exchange
POST; the non-numeric answer `"abc"` produces the validation error and
an empty trace. -/
theorem checkAndDo2FA_exchange_post_witness :
    netCalls (checkAndDo2FA w2FA clCN respChallenge).2 =
      [{ method := "POST", url := "https://leancloud.cn" ++ "/1.1/do2fa"
         options := { headers := [], cookieJar := some JarRef.fresh, useCookieJar := false
                      userAgent := ""
                      json := some [("token", .str "abc"), ("code", .num 123456)] } }] ∧
    checkAndDo2FA wBadCode clCN respChallenge =
      (.err (.code2FA "二次认证验证码应该为数字"), []) :=
  ⟨(checkAndDo2FA_exchange_post w2FA clCN respChallenge [("token", JsonVal.str "abc")]
      "abc" "https://leancloud.cn" 123456 rfl rfl rfl).1 rfl rfl rfl,
   (checkAndDo2FA_exchange_post wBadCode clCN respChallenge [("token", JsonVal.str "abc")]
      "abc" "https://leancloud.cn" 123456 rfl rfl rfl).2 "二次认证验证码应该为数字" rfl⟩

/-- Claim C2: on a successful 2FA exchange (2xx exchange response), the
fresh exchange jar is saved and the exchange response itself is the
handler's result in place of the original 401; the trace holds only the
one-shot exchange POST — the original request is not re-issued. -/
theorem checkAndDo2FA_success_substitutes (w : World) (client : Client)
    (resp resp2 : Response) (fields : List (String × JsonVal)) (t base : String) (c : Int)
    (h401 : resp.statusCode = 401) (hbody : resp.body = .json fields)
    (htok : lookupStr fields "token" = t) (hcode : w.get2FACode = .ok c)
    (hjar : w.newExchangeJar = .ok ()) (hbase : GetBaseURL w client = .ok base)
    (hhttp : w.http (do2faRequest base t c) = .ok resp2) (hok : resp2.Ok = true)
    (hsave : w.saveJar .fresh = .ok ()) :
    checkAndDo2FA w client resp =
      (.ok resp2, [.net (do2faRequest base t c), .save .fresh]) := by
  unfold checkAndDo2FA
  simp [h401, hbody, htok, hcode, hjar, hbase, hhttp, hok, hsave]

/-- Witness for C2, in the 2FA world. -/
theorem checkAndDo2FA_success_substitutes_witness :
    checkAndDo2FA w2FA clCN respChallenge =
      (.ok respOkJson,
       [.net (do2faRequest "https://leancloud.cn" "abc" 123456), .save .fresh]) :=
  checkAndDo2FA_success_substitutes w2FA clCN respChallenge respOkJson
    [("token", JsonVal.str "abc")] "abc" "https://leancloud.cn" 123456
    rfl rfl rfl rfl rfl rfl rfl rfl rfl

/-- Claim C10: every request the 2FA handler dispatches carries only
the token/code JSON body and the fresh exchange jar — no headers (in
particular no `X-XSRF-TOKEN`) and an empty user-agent string, unlike
the main pipeline's default options. -/
theorem do2fa_request_minimal (w : World) (client : Client) (resp : Response)
    (fields : List (String × JsonVal)) (t base : String) (c : Int)
    (h401 : resp.statusCode = 401) (hbody : resp.body = .json fields)
    (htok : lookupStr fields "token" = t) (hcode : w.get2FACode = .ok c)
    (hjar : w.newExchangeJar = .ok ()) (hbase : GetBaseURL w client = .ok base) :
    ∀ req ∈ netCalls (checkAndDo2FA w client resp).2,
      req.options.headers = [] ∧ req.options.userAgent = "" ∧
      req.options.cookieJar = some JarRef.fresh ∧
      req.options.json = some [("token", JsonVal.str t), ("code", JsonVal.num c)] := by
  intro req hreq
  rw [netCalls_checkAndDo2FA w client resp fields t base c h401 hbody htok hcode
    hjar hbase] at hreq
  simp only [List.mem_singleton] at hreq
  subst hreq
  simp [do2faRequest]

/-- Witness for C10, at the exchange request of the 2FA world. -/
theorem do2fa_request_minimal_witness :
    (do2faRequest "https://leancloud.cn" "abc" 123456).options.headers = [] ∧
    (do2faRequest "https://leancloud.cn" "abc" 123456).options.userAgent = "" ∧
    (do2faRequest "https://leancloud.cn" "abc" 123456).options.cookieJar =
      some JarRef.fresh ∧
    (do2faRequest "https://leancloud.cn" "abc" 123456).options.json =
      some [("token", JsonVal.str "abc"), ("code", JsonVal.num 123456)] :=
  do2fa_request_minimal w2FA clCN respChallenge [("token", JsonVal.str "abc")] "abc"
    "https://leancloud.cn" 123456 rfl rfl rfl rfl rfl rfl
    (do2faRequest "https://leancloud.cn" "abc" 123456) (by decide)

/-- Claim C3: a caller of `doRequest` never receives a successful result
carrying HTTP status 401 — every successful result has a non-401 status,
a 401 having been either replaced by the 2FA exchange or converted into
a returned error. -/
theorem doRequest_no_bare_401 (w : World) (client : Client) (method path : String)
    (params : Option (List (String × JsonVal))) (options : Option RequestOptions)
    (r : Response) (tr : List Event)
    (h : doRequest w client method path params options = (.ok r, tr)) :
    r.statusCode ≠ 401 := by
  have hOk := (doRequest_ok_inv w client method path params options r tr h).1
  intro h401
  unfold Response.Ok at hOk
  rw [h401] at hOk
  simp at hOk

/-- Witness for C3, on the 2FA world's successful call. -/
theorem doRequest_no_bare_401_witness : respOkJson.statusCode ≠ 401 :=
  doRequest_no_bare_401 w2FA clCN "GET" "/apps" none none respOkJson trW2FA (by decide)

/-- Claim C4: a 2xx final response saves the main jar exactly once
before returning; a transport error on the dispatch never persists it;
and a failing save after a 2xx response fails the call despite the
successful HTTP exchange. -/
theorem doRequest_persistence (w : World) (client : Client) (method path : String)
    (params : Option (List (String × JsonVal))) :
    (∀ options r tr, doRequest w client method path params options = (.ok r, tr) →
      countSaves .main tr = 1) ∧
    (∀ opts base e, validMethod method = true → GetBaseURL w client = .ok base →
      w.http (mainRequest method base path (applyParams params opts)) = .error e →
      doRequest w client method path params (some opts) =
        (.err (.transport e),
         [.net (mainRequest method base path (applyParams params opts))]) ∧
      savedJars (doRequest w client method path params (some opts)).2 = []) ∧
    (∀ opts base resp0 e, validMethod method = true → GetBaseURL w client = .ok base →
      w.http (mainRequest method base path (applyParams params opts)) = .ok resp0 →
      resp0.statusCode ≠ 401 → resp0.Ok = true → w.saveJar .main = .error e →
      doRequest w client method path params (some opts) =
        (.err (.saveFail e),
         [.net (mainRequest method base path (applyParams params opts)),
          .save .main])) := by
  refine ⟨?_, ?_, ?_⟩
  · intro options r tr h
    exact (doRequest_ok_inv w client method path params options r tr h).2
  · intro opts base e hm hb hh
    have heq : doRequest w client method path params (some opts) =
        (.err (.transport e),
         [.net (mainRequest method base path (applyParams params opts))]) := by
      unfold doRequest
      simp [hm, hb, hh]
    exact ⟨heq, by rw [heq]; simp [savedJars]⟩
  · intro opts base resp0 e hm hb hh h401 hOk hs
    unfold doRequest
    simp [hm, hb, hh, checkAndDo2FA_not401 w client resp0 h401, hOk, hs]

/-- Witness for C4: one main-jar save on the base world's 2xx call;
no persistence on a transport failure; a save failure surfacing as the
call's error after a 2xx response. -/
theorem doRequest_persistence_witness :
    countSaves .main trBase = 1 ∧
    (doRequest wTransport clCN "GET" "/apps" none (some optsCN) =
      (.err (.transport "conn refused"),
       [.net (mainRequest "GET" "https://leancloud.cn" "/apps"
          (applyParams none optsCN))]) ∧
     savedJars (doRequest wTransport clCN "GET" "/apps" none (some optsCN)).2 = []) ∧
    doRequest wSaveFail clCN "GET" "/apps" none (some optsCN) =
      (.err (.saveFail "disk full"),
       [.net (mainRequest "GET" "https://leancloud.cn" "/apps"
          (applyParams none optsCN)), .save .main]) :=
  ⟨(doRequest_persistence baseWorld clCN "GET" "/apps" none).1 none respOkJson trBase
     (by decide),
   (doRequest_persistence wTransport clCN "GET" "/apps" none).2.1 optsCN
     "https://leancloud.cn" "conn refused" (by decide) rfl rfl,
   (doRequest_persistence wSaveFail clCN "GET" "/apps" none).2.2 optsCN
     "https://leancloud.cn" respOkJson "disk full" (by decide) rfl rfl (by decide)
     rfl rfl⟩

/-- Claim C5: a non-2xx, non-401 final response whose whitespace-trimmed
Content-Type starts with application/json yields the structured error
parsed from the JSON body, exposing its code and message; any other
content type yields the generic error carrying the HTTP status, the
method and the path. -/
theorem doRequest_error_classification (w : World) (client : Client)
    (method path : String) (params : Option (List (String × JsonVal)))
    (opts : RequestOptions) (base : String) (resp0 : Response)
    (hm : validMethod method = true) (hbase : GetBaseURL w client = .ok base)
    (hhttp : w.http (mainRequest method base path (applyParams params opts)) = .ok resp0)
    (h401 : resp0.statusCode ≠ 401) (hnotOk : resp0.Ok = false) :
    (∀ fields, isJSONContentType resp0.contentType = true → resp0.body = .json fields →
      (doRequest w client method path params (some opts)).1 =
        .err (.structured (lookupInt fields "code") (lookupStr fields "error"))) ∧
    (isJSONContentType resp0.contentType = false →
      (doRequest w client method path params (some opts)).1 =
        .err (.httpStatus resp0.statusCode method path)) := by
  constructor
  · intro fields hct hbody
    unfold doRequest
    simp [hm, hbase, hhttp, checkAndDo2FA_not401 w client resp0 h401, hnotOk, hct,
      NewErrorFromResponse, hbody]
  · intro hct
    unfold doRequest
    simp [hm, hbase, hhttp, checkAndDo2FA_not401 w client resp0 h401, hnotOk, hct]

/-- Witness for C5: the JSON 400 yields the structured error with code 1
and message "bad request"; the plain-text 500 yields the generic
status/method/path error. -/
theorem doRequest_error_classification_witness :
    (doRequest wBadJson clCN "GET" "/apps" none (some optsCN)).1 =
      .err (.structured 1 "bad request") ∧
    (doRequest wBadText clCN "GET" "/apps" none (some optsCN)).1 =
      .err (.httpStatus 500 "GET" "/apps") :=
  ⟨(doRequest_error_classification wBadJson clCN "GET" "/apps" none optsCN
      "https://leancloud.cn" respBadJson rfl rfl rfl (by decide) rfl).1
      [("code", JsonVal.num 1), ("error", JsonVal.str "bad request")] (by decide) rfl,
   (doRequest_error_classification wBadText clCN "GET" "/apps" none optsCN
      "https://leancloud.cn" respBadText rfl rfl rfl (by decide) rfl).2 (by decide)⟩

/-- Claim C8: with nil options, the dispatched request carries the
default options — the X-XSRF-TOKEN header set from the cookie named
XSRF-TOKEN among the client's cookies for the resolved base URL (the
scan yielding "" when no such cookie exists, never an error), the main
cookie store attached, and the fixed client identifier string. -/
theorem doRequest_default_options (w : World) (client : Client) (method path : String)
    (params : Option (List (String × JsonVal))) (base : String)
    (hbase : GetBaseURL w client = .ok base) (hm : validMethod method = true) :
    (doRequest w client method path params none).2.head? =
      some (.net (mainRequest method base path
        { headers := [("X-XSRF-TOKEN", findXSRF (w.cookiesFor base))]
          cookieJar := some JarRef.main
          useCookieJar := true
          userAgent := "LeanCloud-CLI/" ++ w.version
          json := params })) ∧
    ((∀ ck ∈ w.cookiesFor base, ck.name ≠ "XSRF-TOKEN") →
      findXSRF (w.cookiesFor base) = "") := by
  constructor
  · have hopts : Client.options w client =
        .ok { headers := [("X-XSRF-TOKEN", findXSRF (w.cookiesFor base))]
              cookieJar := some JarRef.main
              useCookieJar := true
              userAgent := "LeanCloud-CLI/" ++ w.version
              json := none } := by
      unfold Client.options
      simp [hbase]
    rw [doRequest_none_eq w client method path params _ hopts]
    have hd := doRequest_trace_head w client method path params
      { headers := [("X-XSRF-TOKEN", findXSRF (w.cookiesFor base))],
        cookieJar := some JarRef.main, useCookieJar := true,
        userAgent := "LeanCloud-CLI/" ++ w.version, json := none } base hm hbase
    cases params with
    | none => simpa [applyParams] using hd
    | some p => simpa [applyParams] using hd
  · exact findXSRF_empty (w.cookiesFor base)

/-- Witness for C8: the base world's dispatched request, and the empty
XSRF value in the cookie-less world. -/
theorem doRequest_default_options_witness :
    (doRequest baseWorld clCN "GET" "/apps" none none).2.head? =
      some (.net (mainRequest "GET" "https://leancloud.cn" "/apps"
        { headers := [("X-XSRF-TOKEN",
            findXSRF (baseWorld.cookiesFor "https://leancloud.cn"))]
          cookieJar := some JarRef.main
          useCookieJar := true
          userAgent := "LeanCloud-CLI/" ++ baseWorld.version
          json := none })) ∧
    findXSRF (wNoCookie.cookiesFor "https://leancloud.cn") = "" :=
  ⟨(doRequest_default_options baseWorld clCN "GET" "/apps" none
      "https://leancloud.cn" rfl rfl).1,
   (doRequest_default_options wNoCookie clCN "GET" "/apps" none
      "https://leancloud.cn" rfl rfl).2 (by decide)⟩

/-- Claim C9: a 401 resolved by a successful 2FA exchange produces two
cookie-store saves — the fresh exchange jar inside the challenge
handler, then the client's main jar in the pipeline, because the
substituted exchange response is 2xx — and both jars are backed by the
same file path. -/
theorem doRequest_double_save (w : World) (client : Client) (method path : String)
    (params : Option (List (String × JsonVal))) (opts : RequestOptions)
    (base : String) (resp0 resp2 : Response) (fields : List (String × JsonVal))
    (t : String) (c : Int)
    (hm : validMethod method = true) (hbase : GetBaseURL w client = .ok base)
    (hhttp : w.http (mainRequest method base path (applyParams params opts)) = .ok resp0)
    (h401 : resp0.statusCode = 401) (hbody : resp0.body = .json fields)
    (htok : lookupStr fields "token" = t)
    (hcode : w.get2FACode = .ok c) (hjar : w.newExchangeJar = .ok ())
    (hhttp2 : w.http (do2faRequest base t c) = .ok resp2) (hok2 : resp2.Ok = true)
    (hsaveF : w.saveJar .fresh = .ok ()) (hsaveM : w.saveJar .main = .ok ()) :
    savedJars (doRequest w client method path params (some opts)).2 =
      [JarRef.fresh, JarRef.main] ∧
    jarFilename w .fresh = jarFilename w .main ∧
    (doRequest w client method path params (some opts)).1 = .ok resp2 := by
  have hx := checkAndDo2FA_success_eq w client resp0 resp2 fields t base c
    h401 hbody htok hcode hjar hbase hhttp2 hok2 hsaveF
  have heq : doRequest w client method path params (some opts) =
      (.ok resp2,
       [.net (mainRequest method base path (applyParams params opts)),
        .net (do2faRequest base t c), .save .fresh, .save .main]) := by
    unfold doRequest
    simp [hm, hbase, hhttp, hx, hok2, hsaveM]
  refine ⟨?_, ?_, ?_⟩
  · rw [heq]
    simp [savedJars]
  · simp [jarFilename, mainJarFilename, exchangeJarFilename, jarFileDir, filepathJoin,
      String.append_assoc]
  · rw [heq]

/-- Witness for C9, on the 2FA world's resolved call. -/
theorem doRequest_double_save_witness :
    savedJars (doRequest w2FA clCN "GET" "/apps" none (some optsCN)).2 =
      [JarRef.fresh, JarRef.main] ∧
    jarFilename w2FA .fresh = jarFilename w2FA .main ∧
    (doRequest w2FA clCN "GET" "/apps" none (some optsCN)).1 = .ok respOkJson :=
  doRequest_double_save w2FA clCN "GET" "/apps" none optsCN "https://leancloud.cn"
    respChallenge respOkJson [("token", JsonVal.str "abc")] "abc" 123456
    rfl rfl rfl rfl rfl rfl rfl rfl rfl rfl rfl rfl

end LeanCli
